import Mathlib

/-!
Shallow embedding of the storage core of a package registry proxy-cache
(the verdaccio storage facade, its local filesystem plugin and the uplink
merge engine), with theorems about its error handling, freshness and
path-safety behaviour.

The definitions mirror the TypeScript source:
  - `packages/plugins/local-storage/src/local-fs.ts` (the LocalFS plugin),
  - `packages/store/src/storage.ts` (the storage facade and merge engine).
Effectful steps (file locking, stream events, uplink responses) are passed
in as explicit outcome values, so each code path of the source becomes a
branch of a total function.
-/

namespace Verdaccio

/-! ## Error model

`VErr` stands for the error values the source creates: raw filesystem
errors carry only a `code` string; `errorUtils.getInternalError`,
`getNotFound`, `getServiceUnavailable` build API errors without a code;
`fSError` (local-fs.ts:36) builds a 409 CONFLICT whose `code` field is set
to its message; `custom` stands for any other thrown value. -/

inductive VErr where
  /-- a raw error object whose `code` field is the given string
      (`EAGAIN`, `ENOENT`, `EEXIST`, ...). -/
  | fsCode (c : String)
  /-- `errorUtils.getInternalError msg`. -/
  | internalError (msg : String)
  /-- `errorUtils.getNotFound()`. -/
  | notFound
  /-- `errorUtils.getServiceUnavailable()`. -/
  | serviceUnavailable
  /-- `fSError msg` : HTTP 409 with `code = msg` (local-fs.ts:36-43). -/
  | conflict (msg : String)
  /-- any other error value thrown by a handler, identified by a tag. -/
  | custom (id : Nat)
deriving DecidableEq, Repr

/-- The `code` property a JavaScript `catch` sees on the error, if any. -/
def VErr.jsCode : VErr → Option String
  | .fsCode c => some c
  | .conflict m => some m
  | _ => none

/-- `errorUtils.getInternalError('resource temporarily unavailable')`. -/
def resourceUnavailableError : VErr :=
  .internalError "resource temporarily unavailable"

/-! ## C1: `updatePackageNext` (local-fs.ts:204-250)

The outcome of each effectful step is a field of `UpdateScenario`; the
function below reproduces the `try`/`catch` structure of the source:

  - `lockAndRead` is `_lockAndReadJSONNext` (throws with the lock not held);
  - `handleUpdate` is the caller-supplied transform;
  - `unlockInTry` is the `_unlockJSONNext` call on the success path;
  - `unlockInCatch` is the `_unlockJSONNext` call inside the `catch` block.

Inside the `catch` block with the lock held, the source runs

    try { await this._unlockJSONNext(...); throw err; }
    catch (err) { throw errorUtils.getInternalError('resource temporarily unavailable'); }

so the rethrow of the original error sits inside the same `try` as the
unlock and is caught by its own `catch`: every post-lock failure is
replaced by the internal error, whether the unlock succeeds or not. -/

structure UpdateScenario (M : Type) where
  lockAndRead : Except VErr M
  handleUpdate : M → Except VErr M
  unlockInTry : Except VErr Unit
  unlockInCatch : Except VErr Unit

def updatePackageNext {M : Type} (s : UpdateScenario M) : Except VErr M :=
  match s.lockAndRead with
  | .error err =>
      -- caught with `locked = false`: map the lock/read error by its code
      match err.jsCode with
      | some c =>
          if c = "EAGAIN" then .error resourceUnavailableError
          else if c = "ENOENT" then .error .notFound
          else .error err
      | none => .error err
  | .ok manifest =>
      -- `locked := true`
      match s.handleUpdate manifest with
      | .error _ =>
          -- caught with `locked = true`: unlock, rethrow inside the same try
          match s.unlockInCatch with
          | .ok _ => .error resourceUnavailableError
          | .error _ => .error resourceUnavailableError
      | .ok updated =>
          match s.unlockInTry with
          | .ok _ => .ok updated
          | .error _ =>
              -- the failed unlock is caught with `locked = true`
              match s.unlockInCatch with
              | .ok _ => .error resourceUnavailableError
              | .error _ => .error resourceUnavailableError

deriving instance DecidableEq for Except

/-- A run in which the lock is acquired, the transform fails with a
distinguishable error, and both unlock attempts would succeed. -/
def updateFailedTransformScenario : UpdateScenario Nat :=
  { lockAndRead := .ok 0,
    handleUpdate := fun _ => .error (.custom 7),
    unlockInTry := .ok (),
    unlockInCatch := .ok () }

/-- Claim C1: the claim says that when a step after lock acquisition fails
the lock is released and the caller receives the original error, the error
being replaced by `INTERNAL_ERROR('resource temporarily unavailable')` only
when the unlock attempt itself fails. On the code the replacement is
unconditional: with the transform failing as `custom 7` and the unlock
succeeding, `updatePackageNext` still surfaces the internal error, because
the rethrow of the original error is swallowed by the `catch` of the very
`try` block that performed the unlock. -/
theorem updatePackageNext_replaces_original_error :
    updatePackageNext updateFailedTransformScenario
        = .error resourceUnavailableError ∧
    updatePackageNext updateFailedTransformScenario
        ≠ .error (.custom 7) := by
  constructor <;> decide

/-- The lock-acquisition mappings of C1 do hold: `EAGAIN` surfaces as
`INTERNAL_ERROR('resource temporarily unavailable')` and `ENOENT` as
`NOT_FOUND` when the lock cannot be acquired. -/
def lockFailureScenario (M : Type) (c : String) : UpdateScenario M :=
  { lockAndRead := .error (.fsCode c),
    handleUpdate := fun m => .ok m,
    unlockInTry := .ok (),
    unlockInCatch := .ok () }

theorem updatePackageNext_lock_failure_mapping (M : Type) :
    updatePackageNext (lockFailureScenario M "EAGAIN")
        = .error resourceUnavailableError ∧
    updatePackageNext (lockFailureScenario M "ENOENT")
        = .error .notFound := by
  constructor <;> rfl

/-! ## Merge engine: `_syncUplinksMetadata` (storage.ts:683-833)

### C7: the per-uplink freshness check (storage.ts:711-724)

Before any network call the engine reads `packageInfo._uplinks[upname]`.
When that record is an object and its `fetched` field is truthy with
`Date.now() - fetched < maxage`, the uplink is skipped (`return cb()`,
no network call); otherwise `getRemoteMetadata` is called with the stored
etag (when a record exists). JavaScript truthiness drops `fetched = 0`. -/

structure UpLinkMeta where
  etag : Option String
  fetched : Option Int
deriving DecidableEq, Repr

inductive SyncAction where
  /-- `return cb()` : cache-hit-fresh, no network call to this uplink. -/
  | skipFresh
  /-- `upLink.getRemoteMetadata(name, {etag})` : a network call is issued. -/
  | fetch (etag : Option String)
deriving DecidableEq, Repr

def uplinkSyncAction (meta : Option UpLinkMeta) (now maxage : Int) : SyncAction :=
  match meta with
  | some m =>
      match m.fetched with
      | some f => if f ≠ 0 ∧ now - f < maxage then .skipFresh else .fetch m.etag
      | none => .fetch m.etag
  | none => .fetch none

/-- Claim C7: an uplink whose `fetched` stamp is within `maxage` of now is
skipped without a network call, and a stale uplink in the same run is still
fetched (with the record's etag). `fetched` is a timestamp the engine wrote
with `Date.now()`, hence positive. -/
theorem uplink_freshness_window (m : UpLinkMeta) (f now maxage : Int)
    (hf : m.fetched = some f) (hpos : 0 < f) :
    (now - f < maxage → uplinkSyncAction (some m) now maxage = .skipFresh) ∧
    (maxage ≤ now - f → uplinkSyncAction (some m) now maxage = .fetch m.etag) := by
  constructor
  · intro hlt
    have hcond : f ≠ 0 ∧ now - f < maxage := ⟨by omega, hlt⟩
    simp [uplinkSyncAction, hf, hcond]
  · intro hge
    have hcond : ¬ (f ≠ 0 ∧ now - f < maxage) := by rintro ⟨-, h⟩; omega
    simp [uplinkSyncAction, hf, hcond]

theorem uplink_freshness_window_witness :
    uplinkSyncAction (some ⟨some "tag-a", some 1000⟩) 1500 600 = .skipFresh ∧
    uplinkSyncAction (some ⟨some "tag-a", some 1000⟩) 1700 600 = .fetch (some "tag-a") :=
  ⟨(uplink_freshness_window ⟨some "tag-a", some 1000⟩ 1000 1500 600 rfl (by norm_num)).1
      (by norm_num),
   (uplink_freshness_window ⟨some "tag-a", some 1000⟩ 1000 1700 600 rfl (by norm_num)).2
      (by norm_num)⟩

/-! ### C9: the response handler on `remoteStatus = 304` (storage.ts:724-771)

The callback passed to `getRemoteMetadata` runs, in order:

    if (err && err.remoteStatus === 304) upLinkMeta.fetched = Date.now();
    if (err || !upLinkResponse) return cb(null, [err || getInternalError('no data')]);
    ... validateMetadata ... merge ...

The stamp on the 304 path dereferences `upLinkMeta`, the pre-existing
`_uplinks[upname]` record, without a guard: when no record exists the
property write throws a `TypeError` instead of reaching the
`cb(null, [err])` that records a per-uplink error. -/

structure UplinkResponse where
  /-- `err` is present (the uplink reported an error, the 304 sentinel
      included). -/
  hasErr : Bool
  /-- `err.remoteStatus`. -/
  errStatus : Option Int
  /-- the response body: `none` when absent, `some valid` with `valid`
      the verdict of `validatioUtils.validateMetadata`. -/
  body : Option Bool
  /-- the response ETag. -/
  respEtag : Option String
deriving DecidableEq, Repr

inductive UplinkHandlerResult where
  /-- `cb(null, [...])` : a per-uplink error was recorded; the field holds
      the `_uplinks[upname]` record as the handler left it. -/
  | errorRecorded (meta : Option UpLinkMeta)
  /-- the body was merged and `_uplinks[upname] = {etag, fetched: now}`. -/
  | merged (meta : UpLinkMeta)
deriving DecidableEq, Repr

def handleUplinkResponse (meta : Option UpLinkMeta) (now : Int)
    (r : UplinkResponse) : Except Unit UplinkHandlerResult :=
  -- `if (err && err.remoteStatus === 304) upLinkMeta.fetched = Date.now();`
  let stamped : Except Unit (Option UpLinkMeta) :=
    if r.hasErr ∧ r.errStatus = some 304 then
      match meta with
      | some m => .ok (some { m with fetched := some now })
      | none => .error ()     -- TypeError: cannot set a property of undefined
    else .ok meta
  match stamped with
  | .error _ => .error ()
  | .ok meta1 =>
      if r.hasErr then .ok (.errorRecorded meta1)
      else
        match r.body with
        | none => .ok (.errorRecorded meta1)     -- `!upLinkResponse`
        | some valid =>
            if valid then .ok (.merged { etag := r.respEtag, fetched := some now })
            else .ok (.errorRecorded meta1)      -- validation failure, recorded

/-- A 304 sentinel response: `err` present with `remoteStatus = 304` and no
body. -/
def remote304 : UplinkResponse :=
  { hasErr := true, errStatus := some 304, body := none, respEtag := none }

/-- Claim C9: on a `remoteStatus = 304` response the stamp of
`_uplinks[upname].fetched` is only safe when the record already exists:
with a record, `fetched` is stamped and the sentinel is recorded as this
uplink's error; with no record, the handler throws a `TypeError` instead of
recording a per-uplink error. -/
theorem handleUplinkResponse_304_unguarded (m : UpLinkMeta) (now : Int) :
    handleUplinkResponse (some m) now remote304
        = .ok (.errorRecorded (some { m with fetched := some now })) ∧
    handleUplinkResponse none now remote304 = .error () ∧
    ∀ res, handleUplinkResponse none now remote304 ≠ .ok res := by
  refine ⟨rfl, rfl, fun res h => ?_⟩
  simp [handleUplinkResponse, remote304] at h

/-! ### C2: the all-uplinks-failed verdict (storage.ts:775-800)

When no local data exists and no uplink produced a manifest (`!found`),
the engine scans the per-uplink error groups; as soon as one error whose
`code` is `ETIMEDOUT`, `ESOCKETTIMEDOUT` or `ECONNRESET` is seen it sets
`uplinkTimeoutError` and answers `getServiceUnavailable()`; otherwise it
answers `getNotFound(API_ERROR.NO_PACKAGE)`. Each element of the scanned
list is `undefined` (a successful uplink) or the one-element error list the
per-uplink callback recorded. -/

structure UplinkErr where
  code : Option String
deriving DecidableEq, Repr

def timeoutClassCode (c : String) : Bool :=
  c = "ETIMEDOUT" || c = "ESOCKETTIMEDOUT" || c = "ECONNRESET"

def errTimeout : Option UplinkErr → Bool
  | some e =>
      match e.code with
      | some c => timeoutClassCode c
      | none => false
  | none => false

def groupHasTimeout : Option (List (Option UplinkErr)) → Bool
  | some inner => inner.any errTimeout
  | none => false

def hasUplinkTimeoutError (errs : List (Option (List (Option UplinkErr)))) : Bool :=
  errs.any groupHasTimeout

/-- The verdict of `_syncUplinksMetadata` when the package is absent
locally and every uplink failed (the `!found` branch). -/
def syncUplinksNotFoundResult (errs : List (Option (List (Option UplinkErr)))) : VErr :=
  if hasUplinkTimeoutError errs then .serviceUnavailable else .notFound

/-- A timeout-class error code, stated declaratively. -/
def TimeoutClassSpec (c : String) : Prop :=
  c = "ETIMEDOUT" ∨ c = "ESOCKETTIMEDOUT" ∨ c = "ECONNRESET"

/-- Some recorded uplink error is timeout-class. -/
def HasTimeoutClassError (errs : List (Option (List (Option UplinkErr)))) : Prop :=
  ∃ l, some l ∈ errs ∧ ∃ e, some e ∈ l ∧ ∃ c, e.code = some c ∧ TimeoutClassSpec c

theorem errTimeout_iff_spec (x : Option UplinkErr) :
    errTimeout x = true ↔ ∃ e, x = some e ∧ ∃ c, e.code = some c ∧ TimeoutClassSpec c := by
  cases x with
  | none => simp [errTimeout]
  | some e =>
      cases hc : e.code with
      | none => simp [errTimeout, hc]
      | some c =>
          simp [errTimeout, hc, timeoutClassCode, TimeoutClassSpec, or_assoc]

theorem hasUplinkTimeoutError_iff_spec (errs : List (Option (List (Option UplinkErr)))) :
    hasUplinkTimeoutError errs = true ↔ HasTimeoutClassError errs := by
  unfold hasUplinkTimeoutError HasTimeoutClassError
  rw [List.any_eq_true]
  constructor
  · rintro ⟨g, hg, hgt⟩
    cases g with
    | none => simp [groupHasTimeout] at hgt
    | some l =>
        rw [groupHasTimeout, List.any_eq_true] at hgt
        obtain ⟨x, hx, hxt⟩ := hgt
        obtain ⟨e, rfl, c, hc, hcls⟩ := (errTimeout_iff_spec x).mp hxt
        exact ⟨l, hg, e, hx, c, hc, hcls⟩
  · rintro ⟨l, hl, e, he, c, hc, hcls⟩
    refine ⟨some l, hl, ?_⟩
    rw [groupHasTimeout, List.any_eq_true]
    exact ⟨some e, he, (errTimeout_iff_spec (some e)).mpr ⟨e, rfl, c, hc, hcls⟩⟩

/-- Claim C2 counterexample: two uplinks fail, one with `ECONNREFUSED`
(not timeout-class) and one with `ETIMEDOUT`. Not all uplink errors are
timeout-class, so the claim requires `NOT_FOUND`; the code answers
`SERVICE_UNAVAILABLE` because a single timeout-class error suffices. -/
def mixedUplinkErrors : List (Option (List (Option UplinkErr))) :=
  [some [some ⟨some "ECONNREFUSED"⟩], some [some ⟨some "ETIMEDOUT"⟩]]

theorem syncUplinks_mixed_errors_escalate :
    errTimeout (some ⟨some "ECONNREFUSED"⟩) = false ∧
    syncUplinksNotFoundResult mixedUplinkErrors = .serviceUnavailable ∧
    syncUplinksNotFoundResult mixedUplinkErrors ≠ .notFound := by
  refine ⟨rfl, rfl, ?_⟩
  decide

/-- Claim C2, amended: with the package absent locally and every uplink
failed, the verdict is `SERVICE_UNAVAILABLE` exactly when at least one
uplink error is timeout-class (`ETIMEDOUT`, `ESOCKETTIMEDOUT`,
`ECONNRESET`), and `NOT_FOUND` exactly when none is. -/
theorem syncUplinks_timeout_escalation (errs : List (Option (List (Option UplinkErr)))) :
    (syncUplinksNotFoundResult errs = .serviceUnavailable ↔ HasTimeoutClassError errs) ∧
    (syncUplinksNotFoundResult errs = .notFound ↔ ¬ HasTimeoutClassError errs) := by
  rw [← hasUplinkTimeoutError_iff_spec]
  unfold syncUplinksNotFoundResult
  cases hb : hasUplinkTimeoutError errs <;> simp [hb]

/-! ## LocalFS: `writeTarball` (local-fs.ts:438-509)

### C3: the open-time existence check and concurrent uploads

`writeTarball` calls `fs.access(pathName, cb)`; when the file exists the
upload stream emits `fSError(fileExist)` (a CONFLICT) and no write stream
is created; when it does not, bytes are staged to `<name>.tmp-<rand>` and
`done()` renames the staging file onto the final path. The check and the
rename are separate filesystem operations with no exclusive-create in
between, so two concurrent calls are modelled as two-step tasks (check,
then rename) interleaved by a schedule over a shared `finalExists` flag. -/

inductive WtStatus where
  | pending
  | conflict
  | success
deriving DecidableEq, Repr

structure WtOp where
  /-- the `fs.access` existence check already ran. -/
  checked : Bool
  status : WtStatus
deriving DecidableEq, Repr

def initialWtOp : WtOp := ⟨false, .pending⟩

/-- One scheduler step of a `writeTarball` call: first the `fs.access`
check (emitting CONFLICT when the final file exists), then the rename of
the staging file onto the final path (which succeeds even over an existing
file). A finished call does nothing. -/
def wtStep (finalExists : Bool) (op : WtOp) : Bool × WtOp :=
  if op.status ≠ .pending then (finalExists, op)
  else if op.checked = false then
    if finalExists then (finalExists, ⟨true, .conflict⟩)
    else (finalExists, ⟨true, .pending⟩)
  else
    (true, ⟨op.checked, .success⟩)

structure WtWorld where
  finalExists : Bool
  opA : WtOp
  opB : WtOp
deriving DecidableEq, Repr

/-- Run two concurrent `writeTarball` calls under a schedule: `true` steps
call A, `false` steps call B. -/
def wtRun (sched : List Bool) (w : WtWorld) : WtWorld :=
  sched.foldl
    (fun w who =>
      if who then
        let r := wtStep w.finalExists w.opA
        { w with finalExists := r.1, opA := r.2 }
      else
        let r := wtStep w.finalExists w.opB
        { w with finalExists := r.1, opB := r.2 })
    w

def wtInitialWorld : WtWorld := ⟨false, initialWtOp, initialWtOp⟩

/-- Claim C3 counterexample: under the interleaving A-check, B-check,
A-rename, B-rename — both existence checks run before either rename — both
concurrent calls succeed and neither receives CONFLICT, refuting "exactly
one succeeds and the rest receive CONFLICT". -/
theorem writeTarball_concurrent_both_succeed :
    (wtRun [true, false, true, false] wtInitialWorld).opA.status = .success ∧
    (wtRun [true, false, true, false] wtInitialWorld).opB.status = .success := by
  constructor <;> rfl

/-- Claim C3, amended: a `writeTarball` call whose open-time check sees the
final file present emits CONFLICT and writes nothing to the final path, a
conflicted call stays inert, and when the two calls are serialized (the
second check runs after the first rename) exactly one succeeds and the
other receives CONFLICT; interleaved checks, however, may let both succeed
(the check and the rename are not one atomic exclusive-create). -/
theorem writeTarball_open_time_conflict :
    (∀ op : WtOp, op.status = .pending → op.checked = false →
        (wtStep true op).2.status = .conflict ∧ (wtStep true op).1 = true) ∧
    (∀ b : Bool, wtStep b ⟨true, .conflict⟩ = (b, ⟨true, .conflict⟩)) ∧
    ((wtRun [true, true, false, false] wtInitialWorld).opA.status = .success ∧
     (wtRun [true, true, false, false] wtInitialWorld).opB.status = .conflict) := by
  refine ⟨fun op h1 h2 => ?_, fun b => rfl, rfl, rfl⟩
  constructor <;> simp [wtStep, h1, h2]

/-! ### C4: `writeTarballNext` abort cleanup (local-fs.ts:378-436)

`writeTarballNext` stages to `<name>.tmp-<rand>` and registers, at stream
creation, an unconditional `close` handler that renames the staging file
onto the final path (local-fs.ts:410-417). The abort listener
(local-fs.ts:420-433) only adds a second `close` handler that unlinks the
staging file. Aborting destroys the stream and fires `close`, so both
handlers run, rename first: the staged bytes are renamed onto the final
path, and the cleanup then unlinks a staging file that no longer exists. -/

structure TarballDisk where
  tempExists : Bool
  finalExists : Bool
deriving DecidableEq, Repr

/-- `renameTmpNext` (non-win32 branch, local-fs.ts:75-81): rename the
staging file onto the final path; when the rename fails the staging file is
unlinked (here: absent source, nothing changes). -/
def renameTmpNextFs (d : TarballDisk) : TarballDisk :=
  if d.tempExists then { tempExists := false, finalExists := true }
  else d

/-- `removeTempFile` (local-fs.ts:385-389): unlink the staging file. -/
def removeTempFileFs (d : TarballDisk) : TarballDisk :=
  { d with tempExists := false }

/-- The on-disk effect of aborting a `writeTarballNext` upload. With the
file open (mid-stream) the `close` event runs the registered handlers in
order: the unconditional rename-to-final handler, then the abort listener's
unlink of the staging file. With the file never opened the abort listener
unlinks at once and the later `close` still runs the rename handler (a
no-op on the by-then absent staging file). -/
def writeTarballNextAbort (opened : Bool) (d : TarballDisk) : TarballDisk :=
  if opened then removeTempFileFs (renameTmpNextFs d)
  else renameTmpNextFs (removeTempFileFs d)

/-- Mid-stream: bytes are staged, the final file does not exist yet. -/
def midStreamDisk : TarballDisk := { tempExists := true, finalExists := false }

/-- Claim C4: the claim says that after cancelling a `writeTarballNext`
upload mid-stream neither `<filename>` nor `<filename>.tmp-*` remains and
the staged content is never renamed to the final path. On the code the
unconditional `close` handler renames the staged bytes onto the final path
before the abort cleanup runs, so the final file remains. -/
theorem writeTarballNextAbort_renames_staged_file :
    writeTarballNextAbort true midStreamDisk
        = { tempExists := false, finalExists := true } ∧
    (writeTarballNextAbort true midStreamDisk).finalExists = true := by
  constructor <;> rfl

/-! ### C10: `createPackageNext` (local-fs.ts:297-313)

    try { await openPromise(pathPackage, 'wx'); }
    catch (err) { if (err.code === 'EEXIST') throw fSError(fileExist); }
    await this.writeFileNext(pathPackage, ...);

Only `EEXIST` aborts the create; any other failure of the exclusive open is
swallowed and the temp-file-and-rename write proceeds. -/

inductive FsOp where
  /-- `openPromise(path, 'wx')` : the exclusive create of `package.json`. -/
  | openWx
  /-- `writeFileNext` : write the body to a temp file and rename it in. -/
  | writeTmpRename (content : String)
deriving DecidableEq, Repr

inductive OpenWxResult where
  | ok
  | errCode (c : String)
deriving DecidableEq, Repr

/-- Shallow embedding of `createPackageNext`: given the outcome of the
exclusive open, either the CONFLICT error or the trace of filesystem
operations the call performs. -/
def createPackageNext (openRes : OpenWxResult) (manifestJson : String) :
    Except VErr (List FsOp) := do
  match openRes with
  | .ok => pure ()
  | .errCode c =>
      if c = "EEXIST" then Except.error (VErr.conflict "EEXISTS")
      else pure ()    -- any non-EEXIST open failure is swallowed
  pure [FsOp.openWx, FsOp.writeTmpRename manifestJson]

/-- Claim C10: `createPackageNext` throws CONFLICT exactly when the
exclusive open fails with `EEXIST`; any other open failure (for example
`EACCES`) is swallowed and the manifest write via temp-file-and-rename
proceeds anyway. -/
theorem createPackageNext_conflict_only_on_eexist (json : String) :
    createPackageNext (.errCode "EEXIST") json = .error (.conflict "EEXISTS") ∧
    (∀ c, c ≠ "EEXIST" →
        createPackageNext (.errCode c) json
          = .ok [.openWx, .writeTmpRename json]) ∧
    createPackageNext .ok json = .ok [.openWx, .writeTmpRename json] := by
  refine ⟨rfl, fun c hc => ?_, rfl⟩
  simp [createPackageNext, hc, pure, Except.pure, Bind.bind, Except.bind]

/-! ## C5: `getTarballNext` remote fallback (storage.ts:201-257)

On a local pipeline failure whose code is `ENOENT` (or HTTP 404) the code
reads the local manifest and runs

    if (_.isNil(err) && manifest._distfiles && _.isNil(manifest._distfiles[filename]) === false) {
      // file exist locally
    } else {
      const tarballUrl = manifest._distfiles[filename];
      const remoteStream = await this.fetchTarllballFromUpstream(name, tarballUrl);
      ...
    }

where `err` is the error just caught, so `_.isNil(err)` is always false:
the first branch is dead, and the else branch runs even when
`_distfiles[filename]` is absent, calling `fetchTarllballFromUpstream`
with an undefined URL instead of failing with NOT_FOUND. -/

structure DistManifest where
  /-- `_distfiles` : tarball filename to upstream URL. -/
  distfiles : List (String × String)
deriving DecidableEq, Repr

def lookupDistfile (m : DistManifest) (filename : String) : Option String :=
  (m.distfiles.find? (fun p => p.1 == filename)).map Prod.snd

inductive TarballNextOutcome where
  /-- the local read stream was piped to the caller. -/
  | localStream
  /-- the dead `// file exist locally` branch. -/
  | localHitBranch
  /-- `fetchTarllballFromUpstream(name, tarballUrl)` with the looked-up
      URL, `none` when `_distfiles[filename]` is absent. -/
  | upstreamFetch (url : Option String)
  /-- any other local error is rethrown. -/
  | fatal (code : String)
deriving DecidableEq, Repr

/-- Shallow embedding of `getTarballNext`: `localResult` is the outcome of
piping the local read stream (`none` = success, `some code` = the code of
the error it failed with; HTTP 404 is written `"404"`). -/
def getTarballNext (localResult : Option String) (manifest : DistManifest)
    (filename : String) : TarballNextOutcome :=
  match localResult with
  | none => .localStream
  | some code =>
      if code = "ENOENT" ∨ code = "404" then
        -- `err` here is the caught local error, so `_.isNil(err)` is false
        let errIsNil := false
        if errIsNil && (lookupDistfile manifest filename).isSome then
          .localHitBranch
        else
          .upstreamFetch (lookupDistfile manifest filename)
      else .fatal code

/-- Claim C5: the claim says a local miss with `_distfiles[filename]`
absent fails with NOT_FOUND and opens no upstream stream for an undefined
URL. On the code the miss path always takes the upstream branch: with no
`_distfiles` entry it calls `fetchTarllballFromUpstream` with an undefined
URL, and even with an entry present the `// file exist locally` branch is
dead and the upstream fetch runs. -/
theorem getTarballNext_missing_distfile_fetches_undefined_url :
    getTarballNext (some "ENOENT") ⟨[]⟩ "p-1.0.0.tgz" = .upstreamFetch none ∧
    getTarballNext (some "ENOENT") ⟨[("p-1.0.0.tgz", "https://u/p-1.0.0.tgz")]⟩ "p-1.0.0.tgz"
        = .upstreamFetch (some "https://u/p-1.0.0.tgz") := by
  constructor <;> rfl

/-! ## C6: dist-tag normalization on the package read path

`getPackage` (storage.ts:604-607) and `getPackageNext` (storage.ts:559-563)
both return

    normalizeDistTags(cleanUpLinksRef(manifest, keepUpLinkData))  with  _attachments = {}

`normalizeDistTags` and `cleanUpLinksRef` live in `storage-utils`, outside
the given sources, and are modelled from the spec below. -/

structure VersionRec where
  tarball : String
deriving DecidableEq, Repr

structure PkgManifest where
  name : String
  versions : List (String × VersionRec)
  distTags : List (String × String)
  attachments : List (String × String)
  uplinks : List (String × UpLinkMeta)
deriving DecidableEq, Repr

/-- Modelled from the spec (`cleanUpLinksRef`, code in `storage-utils`
outside the given sources): drop the per-uplink bookkeeping from the
returned manifest unless `keepUpLinkData`; `versions`, `dist-tags` and
`_attachments` are untouched. -/
def cleanUpLinksRef (keepUpLinkData : Bool) (m : PkgManifest) : PkgManifest :=
  if keepUpLinkData then m else { m with uplinks := [] }

/-- Modelled from the spec (`normalizeDistTags`, code in `storage-utils`
outside the given sources): "Normalize dist-tags: drop any tag whose
target version is absent from versions." -/
def normalizeDistTags (m : PkgManifest) : PkgManifest :=
  { m with distTags := m.distTags.filter (fun p => m.versions.any (fun q => q.1 == p.2)) }

/-- The normalization the facade's read path applies before returning:
normalize dist-tags over the cleaned manifest and clear `_attachments`
(storage.ts:559-563 and 604-607). -/
def getPackageNormalize (keepUpLinkData : Bool) (m : PkgManifest) : PkgManifest :=
  { normalizeDistTags (cleanUpLinksRef keepUpLinkData m) with attachments := [] }

/-- Claim C6: every value of the returned manifest's dist-tags mapping is a
key of its versions mapping, and `_attachments` is the empty object. -/
theorem getPackageNormalize_dist_tags_consistent (keep : Bool) (m : PkgManifest) :
    (∀ tag v, (tag, v) ∈ (getPackageNormalize keep m).distTags →
        ∃ rec, (v, rec) ∈ (getPackageNormalize keep m).versions) ∧
    (getPackageNormalize keep m).attachments = [] := by
  constructor
  · intro tag v hmem
    have hver :
        (getPackageNormalize keep m).versions = (cleanUpLinksRef keep m).versions := rfl
    rw [hver]
    have hdt : (getPackageNormalize keep m).distTags
        = (cleanUpLinksRef keep m).distTags.filter
            (fun p => (cleanUpLinksRef keep m).versions.any (fun q => q.1 == p.2)) := rfl
    rw [hdt, List.mem_filter] at hmem
    obtain ⟨-, hpred⟩ := hmem
    rw [List.any_eq_true] at hpred
    obtain ⟨⟨q1, q2⟩, hq, hqv⟩ := hpred
    rw [beq_iff_eq] at hqv
    simp only at hqv
    subst hqv
    exact ⟨q2, hq⟩
  · rfl

/-! ## C8: filesystem paths of the LocalFS plugin

`_getStorage` (local-fs.ts:594-598) joins the storage root with
`sanitize-filename` applied to the file name. The staging path of a
tarball upload, however, is built directly from the raw name
(local-fs.ts:381-384 and 453-456):

    path.join(this.path, `${pkgName}.tmp-${...}`)

so a name containing path separators escapes the storage root. Paths are
modelled as component lists with Node's `path.join`/`normalize` semantics
(`.` dropped, `..` popping the previous component). -/

def splitOnSlashAux : List Char → List Char → List String
  | [], acc => [String.mk acc.reverse]
  | c :: rest, acc =>
      if c = '/' then String.mk acc.reverse :: splitOnSlashAux rest []
      else splitOnSlashAux rest (c :: acc)

/-- The components of a path string: split on `/`, empty segments dropped. -/
def pathComponents (s : String) : List String :=
  (splitOnSlashAux s.data []).filter (fun c => ¬ c = "")

/-- One step of Node `path.normalize` over components. -/
def normStep (acc : List String) (c : String) : List String :=
  if c = "." then acc
  else if c = ".." then acc.dropLast
  else acc ++ [c]

def normComponents (cs : List String) : List String :=
  cs.foldl normStep []

/-- `path.join(root, s)` at component level. -/
def joinComponents (root : List String) (s : String) : List String :=
  normComponents (root ++ pathComponents s)

/-- `p` lies at or below `root`. -/
def componentsUnder (root p : List String) : Bool :=
  match root, p with
  | [], _ => true
  | _ :: _, [] => false
  | a :: as, b :: bs => a == b && componentsUnder as bs

/-- Whether joining `root` with `s` stays inside `root`. -/
def underRoot (root : List String) (p : List String) : Bool :=
  componentsUnder (normComponents root) p

/-- Modelled from the spec: the sanitizer strips path separators and null
bytes from the segment (`sanitize-filename`, an external dependency). -/
def sanitizeSegment (s : String) : String :=
  String.mk (s.data.filter (fun ch => ¬ (ch = '/' ∨ ch = '\\' ∨ ch.toNat = 0)))

/-- `_getStorage` (local-fs.ts:594-598): the root joined with the
sanitized segment. -/
def getStoragePath (root : List String) (fileName : String) : List String :=
  joinComponents root (sanitizeSegment fileName)

/-- The staging path `writeTarballNext` (local-fs.ts:381-384) and
`writeTarball` (local-fs.ts:453-456) build: the root joined with the RAW
name suffixed `.tmp-<rand>`, no sanitization. -/
def tempTarballPath (root : List String) (pkgName rand : String) : List String :=
  joinComponents root (pkgName ++ ".tmp-" ++ rand)

/-- Claim C8: the claim says every on-disk path of a LocalFS operation is
the storage root joined with a sanitized segment and never escapes the
root. The staging path of a tarball upload joins the raw name: for the
name `../../evil` it resolves outside the storage root (while the
`_getStorage` path for the same name, built from the sanitized segment,
stays inside). -/
theorem writeTarballNext_staging_path_escapes_root :
    tempTarballPath ["storage", "pkg"] "../../evil" "123" = ["evil.tmp-123"] ∧
    underRoot ["storage", "pkg"] (tempTarballPath ["storage", "pkg"] "../../evil" "123")
        = false ∧
    underRoot ["storage", "pkg"] (getStoragePath ["storage", "pkg"] "../../evil")
        = true := by
  refine ⟨?_, ?_, ?_⟩ <;> rfl

end Verdaccio
